import Mathlib

/-!
A shallow embedding of `ParamShiftEstimatorGradient`
(`qiskit_algorithms/gradients/param_shift/param_shift_estimator_gradient.py`)
and proofs about its behaviour.

Modelling decisions:
* Circuits and observables are opaque to the routine; a circuit is reduced to
  its ordered list of parameter identifiers (natural numbers), an observable to
  an identifier.
* A parameter value is a pair `(q, m) : ℚ × ℤ` denoting the real number
  `q + m * (π/2)`; the parameter-shift of `±π/2` adds `±1` to the second
  component.  Expectation values and precisions are modelled as rationals.
* The external estimator is a function from a batch of pubs to either a list of
  per-pub results or an exception of an abstract type `ε`; the exception raised
  while obtaining the job result is the `Except.error` payload.
* The routine's observable effects are captured explicitly: the returned
  `Outcome` records the result (or the Python exception that escapes), the list
  of batches submitted to the estimator, and the state of the caller-supplied
  `precision` object after the call (Python mutates a caller-supplied list in
  place; scalar / `None` precisions are rebound locally and never mutated).
-/

namespace ParamShiftGrad

/-- An observable, opaque to the gradient routine. -/
abbrev Obs := Nat

/-- A circuit, reduced to its ordered list of parameter identifiers. -/
structure Circuit where
  parameters : List Nat
deriving DecidableEq, Repr

/-- A parameter value `(q, m)`, denoting the real number `q + m * (π/2)`. -/
abbrev PVal := ℚ × ℤ

/-- One entry of the batched estimator request: the tuple
`(circuit, observable, param_shift_parameter_values, precision_)` appended to
`pubs` in `_run_unique`. -/
structure Pub where
  circuit : Circuit
  observable : Obs
  paramValues : List (List PVal)
  precision : Option ℚ
deriving DecidableEq, Repr

/-- One per-pub result returned by the estimator: the expectation-value vector
`result.data.evs` and the `target_precision` entry of `result.metadata`. -/
structure PubResult where
  evs : List ℚ
  target_precision : ℚ
deriving DecidableEq, Repr

/-- The `precision` argument of `_run_unique`:
a scalar float, `None`, or a per-circuit sequence possibly containing `None`. -/
inductive PrecisionIn
  | scalar (p : ℚ)
  | noPrec
  | seq (ps : List (Option ℚ))
deriving DecidableEq, Repr

/-- The `precision` component of the returned `EstimatorGradientResult`:
a single resolved scalar, or the per-circuit list. -/
inductive PrecisionOut
  | scalar (p : ℚ)
  | seq (ps : List (Option ℚ))
deriving DecidableEq, Repr

/-- The Python exceptions that can escape `_run_unique`:
the `ValueError` of the length validation, the `AlgorithmError` wrapping the
cause raised by the estimator job, the `IndexError` of `precision[0]` on an
empty broadcast list, and the numpy `ValueError` of a shape mismatch in
`evs[: n // 2] - evs[n // 2 :]`. -/
inductive Err (ε : Type)
  | valueError
  | algorithmError (cause : ε)
  | indexError
  | npValueError
deriving DecidableEq, Repr

/-- The result record built at the end of `_run_unique`:
`EstimatorGradientResult(gradients=…, metadata=…, precision=…)`, with each
metadata dict `{"parameters": parameters_}` reduced to the recorded subset. -/
structure EstimatorGradientResult where
  gradients : List (List ℚ)
  metadata : List (List Nat)
  precision : PrecisionOut
deriving DecidableEq, Repr

/-- Observable behaviour of one call to `_run_unique`: the returned value or
escaping exception, the batches submitted to the estimator, and the caller's
`precision` argument as the caller sees it after the call. -/
structure Outcome (ε : Type) where
  result : Except (Err ε) EstimatorGradientResult
  estimatorCalls : List (List Pub)
  callerPrecision : PrecisionIn

/-- The local `precision` list after the broadcast step:
`[precision] * len(circuits)` for a scalar or `None`, the caller's sequence
unchanged otherwise. -/
def precListOf (prec : PrecisionIn) (n : Nat) : List (Option ℚ) :=
  match prec with
  | .scalar p => List.replicate n (some p)
  | .noPrec => List.replicate n none
  | .seq ps => ps

/-- The `has_transformed_precision` flag of `_run_unique`. -/
def hasTransformedOf : PrecisionIn → Bool
  | .seq _ => false
  | _ => true

/-- The length validation of `_run_unique`:
`len(circuits) == len(observables) == len(parameters) == len(parameter_values)
== len(precision)`. -/
abbrev lengthsOk (cs : List Circuit) (os : List Obs) (vs : List (List PVal))
    (ps : List (List Nat)) (pl : List (Option ℚ)) : Prop :=
  cs.length = os.length ∧ cs.length = ps.length ∧
    cs.length = vs.length ∧ cs.length = pl.length

/-- Modelled from the spec: positions (within the circuit's ordered parameter
list) of the parameters selected for differentiation, "restricted to circuit
parameters".  The helper `_make_param_shift_parameter_values` lives in
`qiskit_algorithms/gradients/utils.py`, which is not part of the sources
here. -/
def selectedIndices (c : Circuit) (params : List Nat) : List Nat :=
  (params.filter (fun p => decide (p ∈ c.parameters))).map
    (fun p => c.parameters.indexOf p)

/-- Shift the parameter at position `j` by `m` multiples of `π/2`. -/
def shiftAt : List PVal → Nat → ℤ → List PVal
  | [], _, _ => []
  | v :: vs, 0, m => (v.1, v.2 + m) :: vs
  | v :: vs, j + 1, m => v :: shiftAt vs j m

/-- Modelled from the spec: `_make_param_shift_parameter_values` (in
`qiskit_algorithms/gradients/utils.py`, not under the sources here) — for each
selected parameter produce two shifted parameter-value assignments, one with a
`+π/2` shift and one with a `−π/2` shift, the `+π/2` assignments first. -/
def make_param_shift_parameter_values (c : Circuit) (values : List PVal)
    (params : List Nat) : List (List PVal) :=
  (selectedIndices c params).map (fun j => shiftAt values j 1) ++
    (selectedIndices c params).map (fun j => shiftAt values j (-1))

/-- The `pubs` list built by the loop of `_run_unique`:
one `(circuit, observable, param_shift_parameter_values, precision_)` tuple per
circuit, zipping the five input sequences. -/
def buildPubs : List Circuit → List Obs → List (List PVal) → List (List Nat) →
    List (Option ℚ) → List Pub
  | c :: cs, o :: os, v :: vs, p :: ps, r :: rs =>
      ⟨c, o, make_param_shift_parameter_values c v p, r⟩ ::
        buildPubs cs os vs ps rs
  | _, _, _, _, _ => []

/-- The `pubs` batch submitted by `_run_unique` for the given inputs. -/
def pubsOf (cs : List Circuit) (os : List Obs) (vs : List (List PVal))
    (ps : List (List Nat)) (prec : PrecisionIn) : List Pub :=
  buildPubs cs os vs ps (precListOf prec cs.length)

/-- Numpy subtraction of two one-dimensional arrays, including the size-1
broadcasting rule; `none` models the numpy shape-mismatch `ValueError`. -/
def npSub (xs ys : List ℚ) : Option (List ℚ) :=
  if xs.length = ys.length then
    some (List.zipWith (fun a b => a - b) xs ys)
  else
    match xs, ys with
    | [x], ys => some (ys.map (fun y => x - y))
    | xs, [y] => some (xs.map (fun x => x - y))
    | _, _ => none

/-- One iteration of the gradient loop:
`(evs[: n // 2] - evs[n // 2 :]) / 2` for `n = evs.shape[0]`. -/
def gradOfEvs (evs : List ℚ) : Option (List ℚ) :=
  (npSub (evs.take (evs.length / 2)) (evs.drop (evs.length / 2))).map
    (fun l => l.map (fun a => a / 2))

/-- The gradient loop of `_run_unique` over all per-pub results. -/
def computeGradients : List PubResult → Option (List (List ℚ))
  | [] => some []
  | r :: rs =>
      match gradOfEvs r.evs, computeGradients rs with
      | some g, some gs => some (g :: gs)
      | _, _ => none

/-- The in-place resolution loop over a caller-supplied precision sequence:
every `None` entry at an index `i` covered by `zip(precision, results)` is
overwritten with `results[i].metadata["target_precision"]`. -/
def resolveSeq : List (Option ℚ) → List PubResult → List (Option ℚ)
  | [], _ => []
  | ps, [] => ps
  | none :: ps, r :: rs => some r.target_precision :: resolveSeq ps rs
  | some q :: ps, _ :: rs => some q :: resolveSeq ps rs

/-- The body of `_run_unique`, stage by stage: broadcast a scalar / `None`
precision, validate the five lengths, build the pubs, run the single estimator
job (wrapping a failure into `AlgorithmError`), compute the gradients, resolve
the precision (reading `precision[0]`, or mutating the caller's sequence in
place), and assemble the `EstimatorGradientResult`. -/
def runUnique {ε : Type} (est : List Pub → Except ε (List PubResult))
    (circuits : List Circuit) (observables : List Obs)
    (parameter_values : List (List PVal)) (parameters : List (List Nat))
    (precision : PrecisionIn) : Outcome ε :=
  let precList := precListOf precision circuits.length
  if lengthsOk circuits observables parameter_values parameters precList then
    let pubs := buildPubs circuits observables parameter_values parameters
      precList
    match est pubs with
    | .error exc => ⟨.error (.algorithmError exc), [pubs], precision⟩
    | .ok results =>
      match computeGradients results with
      | none => ⟨.error .npValueError, [pubs], precision⟩
      | some gradients =>
        if hasTransformedOf precision then
          match precList, results with
          | [], _ => ⟨.error .indexError, [pubs], precision⟩
          | some p :: _, _ =>
              ⟨.ok ⟨gradients, parameters, .scalar p⟩, [pubs], precision⟩
          | none :: _, [] => ⟨.error .indexError, [pubs], precision⟩
          | none :: _, r0 :: _ =>
              ⟨.ok ⟨gradients, parameters, .scalar r0.target_precision⟩,
                [pubs], precision⟩
        else
          let finalPs := resolveSeq precList results
          ⟨.ok ⟨gradients, parameters, .seq finalPs⟩, [pubs], .seq finalPs⟩
  else
    ⟨.error .valueError, [], precision⟩

/-- Observable behaviour of one call to `_run`: additionally records whether
the configured transpiler was invoked. -/
structure RunOutcome (ε : Type) where
  result : Except (Err ε) EstimatorGradientResult
  transpilerCalled : Bool
  estimatorCalls : List (List Pub)
  callerPrecision : PrecisionIn

/-- Modelled from the spec: the base-class `_preprocess` (not under the sources
here) translates each circuit to the supported shiftable-gate set; circuits
are opaque at this abstraction, so each of the three sequences is returned
unchanged.  It never sees the observables. -/
def preprocess (cs : List Circuit) (vs : List (List PVal))
    (ps : List (List Nat)) :
    List Circuit × List (List PVal) × List (List Nat) :=
  (cs, vs, ps)

/-- Modelled from the spec: the base-class `_postprocess` (not under the
sources here) maps results on the translated circuits back to the caller's
parameter order; identity at this abstraction. -/
def postprocess (r : EstimatorGradientResult) : EstimatorGradientResult := r

/-- The circuits handed to `_run_unique` by `_run`: the preprocessed circuits,
further rewritten by the transpiler when one is configured. -/
def transpiledCircuits (transpiler : Option (List Circuit → List Circuit))
    (cs : List Circuit) : List Circuit :=
  match transpiler with
  | none => cs
  | some t => t cs

/-- The observables handed to `_run_unique` by `_run`: unchanged without a
transpiler, otherwise `obs.apply_layout(circuit.layout)` over
`zip(g_circuits, observables)` (`zip` truncation included). -/
def transpiledObservables (transpiler : Option (List Circuit → List Circuit))
    (applyLayout : Circuit → Obs → Obs) (cs : List Circuit)
    (os : List Obs) : List Obs :=
  match transpiler with
  | none => os
  | some t => List.zipWith (fun c ob => applyLayout c ob) (t cs) os

/-- The body of `_run`: preprocess, optionally run the transpiler and apply
the resulting layouts to the observables, then delegate to `_run_unique` and
postprocess. -/
def run {ε : Type} (est : List Pub → Except ε (List PubResult))
    (transpiler : Option (List Circuit → List Circuit))
    (applyLayout : Circuit → Obs → Obs)
    (circuits : List Circuit) (observables : List Obs)
    (parameter_values : List (List PVal)) (parameters : List (List Nat))
    (precision : PrecisionIn) : RunOutcome ε :=
  match preprocess circuits parameter_values parameters with
  | (g_circuits, g_parameter_values, g_parameters) =>
    let o := runUnique est (transpiledCircuits transpiler g_circuits)
      (transpiledObservables transpiler applyLayout g_circuits observables)
      g_parameter_values g_parameters precision
    ⟨Except.map postprocess o.result, transpiler.isSome, o.estimatorCalls,
      o.callerPrecision⟩

/-- The returned result, if the call succeeded. -/
def resultOk {ε : Type} (o : Outcome ε) : Option EstimatorGradientResult :=
  o.result.toOption

/-- The escaping exception, if the call failed. -/
def resultErr {ε : Type} (o : Outcome ε) : Option (Err ε) :=
  match o.result with
  | .error e => some e
  | .ok _ => none

/-! ### Lemmas about the individual stages -/

lemma buildPubs_length (cs : List Circuit) :
    ∀ (os : List Obs) (vs : List (List PVal)) (ps : List (List Nat))
      (rs : List (Option ℚ)),
    cs.length = os.length → cs.length = vs.length → cs.length = ps.length →
    cs.length = rs.length →
    (buildPubs cs os vs ps rs).length = cs.length := by
  induction cs with
  | nil => intro os vs ps rs _ _ _ _; rfl
  | cons c cs ih =>
    intro os vs ps rs h1 h2 h3 h4
    cases os with
    | nil => simp at h1
    | cons o os =>
      cases vs with
      | nil => simp at h2
      | cons v vs =>
        cases ps with
        | nil => simp at h3
        | cons p ps =>
          cases rs with
          | nil => simp at h4
          | cons r rs =>
            simp only [buildPubs, List.length_cons]
            have := ih os vs ps rs (by simpa using h1) (by simpa using h2)
              (by simpa using h3) (by simpa using h4)
            omega

lemma buildPubs_getElem? (cs : List Circuit) :
    ∀ (os : List Obs) (vs : List (List PVal)) (ps : List (List Nat))
      (rs : List (Option ℚ)) (j : Nat) (c : Circuit) (o : Obs) (v : List PVal)
      (p : List Nat) (r : Option ℚ),
    cs[j]? = some c → os[j]? = some o → vs[j]? = some v → ps[j]? = some p →
    rs[j]? = some r →
    (buildPubs cs os vs ps rs)[j]? =
      some ⟨c, o, make_param_shift_parameter_values c v p, r⟩ := by
  induction cs with
  | nil => intro os vs ps rs j c o v p r hc _ _ _ _; simp at hc
  | cons c0 cs ih =>
    intro os vs ps rs j c o v p r hc ho hv hp hr
    cases os with
    | nil => simp at ho
    | cons o0 os =>
      cases vs with
      | nil => simp at hv
      | cons v0 vs =>
        cases ps with
        | nil => simp at hp
        | cons p0 ps =>
          cases rs with
          | nil => simp at hr
          | cons r0 rs =>
            cases j with
            | zero =>
              simp only [List.getElem?_cons_zero, Option.some_inj] at hc ho hv hp hr
              subst hc; subst ho; subst hv; subst hp; subst hr
              simp [buildPubs]
            | succ j =>
              simp only [List.getElem?_cons_succ] at hc ho hv hp hr
              simpa [buildPubs] using ih os vs ps rs j c o v p r hc ho hv hp hr

lemma buildPubs_precision_mem (cs : List Circuit) :
    ∀ (os : List Obs) (vs : List (List PVal)) (ps : List (List Nat)) (n : Nat)
      (p : ℚ) (pub : Pub),
    pub ∈ buildPubs cs os vs ps (List.replicate n (some p)) →
    pub.precision = some p := by
  induction cs with
  | nil => intro os vs ps n p pub h; simp [buildPubs] at h
  | cons c0 cs ih =>
    intro os vs ps n p pub h
    cases os with
    | nil => simp [buildPubs] at h
    | cons o0 os =>
      cases vs with
      | nil => simp [buildPubs] at h
      | cons v0 vs =>
        cases ps with
        | nil => simp [buildPubs] at h
        | cons p0 ps =>
          cases n with
          | zero => simp [List.replicate, buildPubs] at h
          | succ n =>
            simp only [List.replicate_succ, buildPubs, List.mem_cons] at h
            rcases h with h | h
            · subst h; rfl
            · exact ih os vs ps n p pub h

lemma computeGradients_length : ∀ (rs : List PubResult) (gs : List (List ℚ)),
    computeGradients rs = some gs → gs.length = rs.length := by
  intro rs
  induction rs with
  | nil =>
    intro gs h
    simp only [computeGradients, Option.some_inj] at h
    subst h; rfl
  | cons r rs ih =>
    intro gs h
    simp only [computeGradients] at h
    cases hg : gradOfEvs r.evs with
    | none => rw [hg] at h; exact absurd h (by simp)
    | some g =>
      rw [hg] at h
      cases hgs : computeGradients rs with
      | none => rw [hgs] at h; exact absurd h (by simp)
      | some gs0 =>
        rw [hgs] at h
        simp only [Option.some_inj] at h
        subst h
        simp [ih gs0 hgs]

lemma computeGradients_getElem? :
    ∀ (rs : List PubResult) (gs : List (List ℚ)),
    computeGradients rs = some gs → ∀ (j : Nat) (r : PubResult),
    rs[j]? = some r → ∃ g, gs[j]? = some g ∧ gradOfEvs r.evs = some g := by
  intro rs
  induction rs with
  | nil => intro gs _ j r hr; simp at hr
  | cons r0 rs ih =>
    intro gs h j r hr
    simp only [computeGradients] at h
    cases hg : gradOfEvs r0.evs with
    | none => rw [hg] at h; exact absurd h (by simp)
    | some g0 =>
      rw [hg] at h
      cases hgs : computeGradients rs with
      | none => rw [hgs] at h; exact absurd h (by simp)
      | some gs0 =>
        rw [hgs] at h
        simp only [Option.some_inj] at h
        subst h
        cases j with
        | zero =>
          simp only [List.getElem?_cons_zero, Option.some_inj] at hr
          subst hr
          exact ⟨g0, by simp, hg⟩
        | succ j =>
          simp only [List.getElem?_cons_succ] at hr
          obtain ⟨g, h1, h2⟩ := ih gs0 hgs j r hr
          exact ⟨g, by simpa using h1, h2⟩

lemma gradOfEvs_eq_of_even (evs : List ℚ) (k : Nat) (h : evs.length = 2 * k) :
    gradOfEvs evs =
      some (List.zipWith (fun a b => (a - b) / 2) (evs.take k) (evs.drop k)) := by
  have hk : evs.length / 2 = k := by omega
  have hlen : (evs.take k).length = (evs.drop k).length := by
    simp only [List.length_take, List.length_drop]
    omega
  simp only [gradOfEvs, npSub, hk, if_pos hlen, Option.map_some']
  rw [List.map_zipWith]

lemma gradOfEvs_getElem? (evs : List ℚ) (k : Nat) (h : evs.length = 2 * k)
    (i : Nat) (hi : i < k) (a b : ℚ) (ha : evs[i]? = some a)
    (hb : evs[i + k]? = some b) :
    ∃ g, gradOfEvs evs = some g ∧ g.length = k ∧
      g[i]? = some ((a - b) / 2) := by
  refine ⟨_, gradOfEvs_eq_of_even evs k h, ?_, ?_⟩
  · simp only [List.length_zipWith, List.length_take, List.length_drop]
    omega
  · rw [List.getElem?_zipWith']
    have h1 : (evs.take k)[i]? = some a := by
      rw [List.getElem?_take]
      simp [hi, ha]
    have h2 : (evs.drop k)[i]? = some b := by
      rw [List.getElem?_drop]
      rw [Nat.add_comm k i]
      exact hb
    rw [h1, h2]
    rfl

lemma resolveSeq_length : ∀ (ps : List (Option ℚ)) (rs : List PubResult),
    (resolveSeq ps rs).length = ps.length := by
  intro ps
  induction ps with
  | nil => intro rs; cases rs <;> rfl
  | cons p ps ih =>
    intro rs
    cases rs with
    | nil => cases p <;> rfl
    | cons r rs => cases p <;> simp [resolveSeq, ih]

lemma resolveSeq_getElem?_none :
    ∀ (ps : List (Option ℚ)) (rs : List PubResult) (i : Nat) (r : PubResult),
    ps[i]? = some none → rs[i]? = some r →
    (resolveSeq ps rs)[i]? = some (some r.target_precision) := by
  intro ps
  induction ps with
  | nil => intro rs i r hp _; simp at hp
  | cons p ps ih =>
    intro rs i r hp hr
    cases rs with
    | nil => simp at hr
    | cons r0 rs =>
      cases i with
      | zero =>
        simp only [List.getElem?_cons_zero, Option.some_inj] at hp hr
        subst hp; subst hr
        simp [resolveSeq]
      | succ i =>
        simp only [List.getElem?_cons_succ] at hp hr
        cases p with
        | none => simpa [resolveSeq] using ih rs i r hp hr
        | some q => simpa [resolveSeq] using ih rs i r hp hr

lemma make_param_shift_length (c : Circuit) (v : List PVal) (p : List Nat) :
    (make_param_shift_parameter_values c v p).length =
      2 * (selectedIndices c p).length := by
  simp only [make_param_shift_parameter_values, List.length_append,
    List.length_map]
  omega

lemma make_param_shift_getElem?_plus (c : Circuit) (v : List PVal)
    (p : List Nat) (i : Nat) (idx : Nat)
    (h : (selectedIndices c p)[i]? = some idx) :
    (make_param_shift_parameter_values c v p)[i]? = some (shiftAt v idx 1) := by
  have hi : i < (selectedIndices c p).length := by
    by_contra hc
    rw [List.getElem?_eq_none (by omega)] at h
    exact absurd h (by simp)
  simp only [make_param_shift_parameter_values]
  rw [List.getElem?_append, if_pos (by simpa using hi), List.getElem?_map, h]
  rfl

lemma make_param_shift_getElem?_minus (c : Circuit) (v : List PVal)
    (p : List Nat) (i : Nat) (idx : Nat)
    (h : (selectedIndices c p)[i]? = some idx) :
    (make_param_shift_parameter_values c v p)[i + (selectedIndices c p).length]? =
      some (shiftAt v idx (-1)) := by
  simp only [make_param_shift_parameter_values]
  rw [List.getElem?_append, if_neg (by simp)]
  have heq : i + (selectedIndices c p).length -
      ((selectedIndices c p).map (fun j => shiftAt v j 1)).length = i := by
    simp
  rw [heq, List.getElem?_map, h]
  rfl

/-! ### Scenario lemmas for `runUnique` -/

lemma runUnique_not_valid {ε : Type} (est : List Pub → Except ε (List PubResult))
    (cs : List Circuit) (os : List Obs) (vs : List (List PVal))
    (ps : List (List Nat)) (prec : PrecisionIn)
    (h : ¬ lengthsOk cs os vs ps (precListOf prec cs.length)) :
    runUnique est cs os vs ps prec = ⟨.error .valueError, [], prec⟩ := by
  simp only [runUnique]
  rw [if_neg h]

lemma runUnique_est_error {ε : Type} (est : List Pub → Except ε (List PubResult))
    (cs : List Circuit) (os : List Obs) (vs : List (List PVal))
    (ps : List (List Nat)) (prec : PrecisionIn) (e : ε)
    (hval : lengthsOk cs os vs ps (precListOf prec cs.length))
    (hest : est (pubsOf cs os vs ps prec) = .error e) :
    runUnique est cs os vs ps prec =
      ⟨.error (.algorithmError e), [pubsOf cs os vs ps prec], prec⟩ := by
  simp only [runUnique, pubsOf] at hest ⊢
  rw [if_pos hval, hest]

lemma runUnique_np_error {ε : Type} (est : List Pub → Except ε (List PubResult))
    (cs : List Circuit) (os : List Obs) (vs : List (List PVal))
    (ps : List (List Nat)) (prec : PrecisionIn) (results : List PubResult)
    (hval : lengthsOk cs os vs ps (precListOf prec cs.length))
    (hest : est (pubsOf cs os vs ps prec) = .ok results)
    (hgr : computeGradients results = none) :
    runUnique est cs os vs ps prec =
      ⟨.error .npValueError, [pubsOf cs os vs ps prec], prec⟩ := by
  simp only [pubsOf] at hest
  simp only [runUnique]
  rw [if_pos hval]
  simp [hest, hgr, pubsOf]

lemma runUnique_transformed_nil {ε : Type}
    (est : List Pub → Except ε (List PubResult))
    (os : List Obs) (vs : List (List PVal)) (ps : List (List Nat))
    (prec : PrecisionIn) (results : List PubResult) (gs : List (List ℚ))
    (htr : hasTransformedOf prec = true)
    (hval : lengthsOk [] os vs ps (precListOf prec 0))
    (hest : est (pubsOf [] os vs ps prec) = .ok results)
    (hgr : computeGradients results = some gs) :
    runUnique est [] os vs ps prec =
      ⟨.error .indexError, [pubsOf [] os vs ps prec], prec⟩ := by
  cases prec with
  | scalar p =>
    simp [pubsOf, precListOf, List.replicate_succ] at hest
    simp only [runUnique, List.length_nil]
    rw [if_pos hval]
    simp [hest, hgr, hasTransformedOf, precListOf, pubsOf]
  | noPrec =>
    simp [pubsOf, precListOf, List.replicate_succ] at hest
    simp only [runUnique, List.length_nil]
    rw [if_pos hval]
    simp [hest, hgr, hasTransformedOf, precListOf, pubsOf]
  | seq qs => simp [hasTransformedOf] at htr

lemma runUnique_scalar_cons {ε : Type}
    (est : List Pub → Except ε (List PubResult))
    (c : Circuit) (cs' : List Circuit) (os : List Obs) (vs : List (List PVal))
    (ps : List (List Nat)) (p : ℚ) (results : List PubResult)
    (gs : List (List ℚ))
    (hval : lengthsOk (c :: cs') os vs ps
      (precListOf (.scalar p) (c :: cs').length))
    (hest : est (pubsOf (c :: cs') os vs ps (.scalar p)) = .ok results)
    (hgr : computeGradients results = some gs) :
    runUnique est (c :: cs') os vs ps (.scalar p) =
      ⟨.ok ⟨gs, ps, .scalar p⟩, [pubsOf (c :: cs') os vs ps (.scalar p)],
        .scalar p⟩ := by
  simp [pubsOf, precListOf, List.replicate_succ] at hest
  simp only [runUnique]
  rw [if_pos hval]
  simp [hest, hgr, hasTransformedOf, precListOf, List.replicate_succ, pubsOf]

lemma runUnique_noPrec_cons {ε : Type}
    (est : List Pub → Except ε (List PubResult))
    (c : Circuit) (cs' : List Circuit) (os : List Obs) (vs : List (List PVal))
    (ps : List (List Nat)) (r0 : PubResult) (rest : List PubResult)
    (gs : List (List ℚ))
    (hval : lengthsOk (c :: cs') os vs ps
      (precListOf .noPrec (c :: cs').length))
    (hest : est (pubsOf (c :: cs') os vs ps .noPrec) = .ok (r0 :: rest))
    (hgr : computeGradients (r0 :: rest) = some gs) :
    runUnique est (c :: cs') os vs ps .noPrec =
      ⟨.ok ⟨gs, ps, .scalar r0.target_precision⟩,
        [pubsOf (c :: cs') os vs ps .noPrec], .noPrec⟩ := by
  simp [pubsOf, precListOf, List.replicate_succ] at hest
  simp only [runUnique]
  rw [if_pos hval]
  simp [hest, hgr, hasTransformedOf, precListOf, List.replicate_succ, pubsOf]

lemma runUnique_noPrec_cons_nilres {ε : Type}
    (est : List Pub → Except ε (List PubResult))
    (c : Circuit) (cs' : List Circuit) (os : List Obs) (vs : List (List PVal))
    (ps : List (List Nat))
    (hval : lengthsOk (c :: cs') os vs ps
      (precListOf .noPrec (c :: cs').length))
    (hest : est (pubsOf (c :: cs') os vs ps .noPrec) = .ok []) :
    runUnique est (c :: cs') os vs ps .noPrec =
      ⟨.error .indexError, [pubsOf (c :: cs') os vs ps .noPrec], .noPrec⟩ := by
  simp [pubsOf, precListOf, List.replicate_succ] at hest
  simp only [runUnique]
  rw [if_pos hval]
  simp [hest, computeGradients, hasTransformedOf, precListOf,
    List.replicate_succ, pubsOf]

lemma runUnique_seq {ε : Type} (est : List Pub → Except ε (List PubResult))
    (cs : List Circuit) (os : List Obs) (vs : List (List PVal))
    (ps : List (List Nat)) (qs : List (Option ℚ)) (results : List PubResult)
    (gs : List (List ℚ))
    (hval : lengthsOk cs os vs ps qs)
    (hest : est (pubsOf cs os vs ps (.seq qs)) = .ok results)
    (hgr : computeGradients results = some gs) :
    runUnique est cs os vs ps (.seq qs) =
      ⟨.ok ⟨gs, ps, .seq (resolveSeq qs results)⟩,
        [pubsOf cs os vs ps (.seq qs)], .seq (resolveSeq qs results)⟩ := by
  have hval2 : lengthsOk cs os vs ps (precListOf (.seq qs) cs.length) := hval
  simp [pubsOf, precListOf, List.replicate_succ] at hest
  simp only [runUnique]
  rw [if_pos hval2]
  simp [hest, hgr, hasTransformedOf, precListOf, pubsOf]

lemma runUnique_estimatorCalls {ε : Type}
    (est : List Pub → Except ε (List PubResult))
    (cs : List Circuit) (os : List Obs) (vs : List (List PVal))
    (ps : List (List Nat)) (prec : PrecisionIn)
    (hval : lengthsOk cs os vs ps (precListOf prec cs.length)) :
    (runUnique est cs os vs ps prec).estimatorCalls =
      [pubsOf cs os vs ps prec] := by
  cases hest : est (pubsOf cs os vs ps prec) with
  | error e => rw [runUnique_est_error est cs os vs ps prec e hval hest]
  | ok results =>
    cases hgr : computeGradients results with
    | none => rw [runUnique_np_error est cs os vs ps prec results hval hest hgr]
    | some gs =>
      cases prec with
      | scalar p =>
        cases cs with
        | nil =>
          rw [runUnique_transformed_nil est os vs ps (.scalar p) results gs
            rfl hval hest hgr]
        | cons c cs' =>
          rw [runUnique_scalar_cons est c cs' os vs ps p results gs hval hest
            hgr]
      | noPrec =>
        cases cs with
        | nil =>
          rw [runUnique_transformed_nil est os vs ps .noPrec results gs
            rfl hval hest hgr]
        | cons c cs' =>
          cases results with
          | nil =>
            rw [runUnique_noPrec_cons_nilres est c cs' os vs ps hval hest]
          | cons r0 rest =>
            rw [runUnique_noPrec_cons est c cs' os vs ps r0 rest gs hval hest
              hgr]
      | seq qs =>
        rw [runUnique_seq est cs os vs ps qs results gs hval hest hgr]

lemma runUnique_ok_inv {ε : Type} (est : List Pub → Except ε (List PubResult))
    (cs : List Circuit) (os : List Obs) (vs : List (List PVal))
    (ps : List (List Nat)) (prec : PrecisionIn) (r : EstimatorGradientResult)
    (hout : (runUnique est cs os vs ps prec).result = .ok r) :
    lengthsOk cs os vs ps (precListOf prec cs.length) ∧
      ∃ results gs, est (pubsOf cs os vs ps prec) = .ok results ∧
        computeGradients results = some gs ∧ r.gradients = gs ∧
        r.metadata = ps := by
  by_cases hval : lengthsOk cs os vs ps (precListOf prec cs.length)
  · refine ⟨hval, ?_⟩
    cases hest : est (pubsOf cs os vs ps prec) with
    | error e =>
      rw [runUnique_est_error est cs os vs ps prec e hval hest] at hout
      exact Except.noConfusion hout
    | ok results =>
      cases hgr : computeGradients results with
      | none =>
        rw [runUnique_np_error est cs os vs ps prec results hval hest hgr]
          at hout
        exact Except.noConfusion hout
      | some gs =>
        refine ⟨results, gs, rfl, hgr, ?_⟩
        cases prec with
        | scalar p =>
          cases cs with
          | nil =>
            rw [runUnique_transformed_nil est os vs ps (.scalar p) results gs
              rfl hval hest hgr] at hout
            exact Except.noConfusion hout
          | cons c cs' =>
            rw [runUnique_scalar_cons est c cs' os vs ps p results gs hval
              hest hgr] at hout
            injection hout with h
            subst h
            exact ⟨rfl, rfl⟩
        | noPrec =>
          cases cs with
          | nil =>
            rw [runUnique_transformed_nil est os vs ps .noPrec results gs
              rfl hval hest hgr] at hout
            exact Except.noConfusion hout
          | cons c cs' =>
            cases results with
            | nil =>
              rw [runUnique_noPrec_cons_nilres est c cs' os vs ps hval hest]
                at hout
              exact Except.noConfusion hout
            | cons r0 rest =>
              rw [runUnique_noPrec_cons est c cs' os vs ps r0 rest gs hval
                hest hgr] at hout
              injection hout with h
              subst h
              exact ⟨rfl, rfl⟩
        | seq qs =>
          rw [runUnique_seq est cs os vs ps qs results gs hval hest hgr]
            at hout
          injection hout with h
          subst h
          exact ⟨rfl, rfl⟩
  · rw [runUnique_not_valid est cs os vs ps prec hval] at hout
    exact Except.noConfusion hout

/-- The precision the returned result reports for circuit `i`: the single
resolved scalar when one was resolved, the `i`-th list entry otherwise. -/
def resolvedPrecisionAt : PrecisionOut → Nat → Option ℚ
  | .scalar p, _ => some p
  | .seq l, i =>
    match l[i]? with
    | some (some q) => some q
    | _ => none

/-- The length of the precision component of a successful result, when that
component is a sequence. -/
def precisionSeqLength : Option EstimatorGradientResult → Option Nat
  | some r =>
    match r.precision with
    | .seq l => some l.length
    | .scalar _ => none
  | none => none

/-- A mock estimator that always succeeds, returning the same expectation
values and default precision for every pub of the submitted batch. -/
def estConst (evs : List ℚ) (t : ℚ) :
    List Pub → Except Nat (List PubResult) :=
  fun pubs => Except.ok (pubs.map (fun _ => ⟨evs, t⟩))

/-- A mock estimator whose job always fails with exception `42`. -/
def estFail : List Pub → Except Nat (List PubResult) :=
  fun _ => Except.error 42

/-- A mock transpiler that returns the circuits unchanged. -/
def idTranspiler : List Circuit → List Circuit := fun l => l

/-- A mock layout application that returns the observable unchanged. -/
def keepLayout : Circuit → Obs → Obs := fun _ o => o

lemma getElem?_lt {α : Type} (l : List α) (j : Nat) (a : α)
    (h : l[j]? = some a) : j < l.length := by
  by_contra hc
  rw [List.getElem?_eq_none (by omega)] at h
  exact Option.noConfusion h

lemma run_eq {ε : Type} (est : List Pub → Except ε (List PubResult))
    (tr : Option (List Circuit → List Circuit))
    (al : Circuit → Obs → Obs) (cs : List Circuit) (os : List Obs)
    (vs : List (List PVal)) (ps : List (List Nat)) (prec : PrecisionIn) :
    run est tr al cs os vs ps prec =
      ⟨Except.map postprocess
          (runUnique est (transpiledCircuits tr cs)
            (transpiledObservables tr al cs os) vs ps prec).result,
        tr.isSome,
        (runUnique est (transpiledCircuits tr cs)
          (transpiledObservables tr al cs os) vs ps prec).estimatorCalls,
        (runUnique est (transpiledCircuits tr cs)
          (transpiledObservables tr al cs os) vs ps prec).callerPrecision⟩ :=
  rfl

lemma runUnique_ok_precision {ε : Type}
    (est : List Pub → Except ε (List PubResult))
    (cs : List Circuit) (os : List Obs) (vs : List (List PVal))
    (ps : List (List Nat)) (prec : PrecisionIn) (r : EstimatorGradientResult)
    (results : List PubResult)
    (hest : est (pubsOf cs os vs ps prec) = .ok results)
    (hout : (runUnique est cs os vs ps prec).result = .ok r) :
    (∀ p, prec = .scalar p → r.precision = .scalar p) ∧
      (prec = .noPrec → ∃ r0 rest, results = r0 :: rest ∧
        r.precision = .scalar r0.target_precision) ∧
      (∀ qs, prec = .seq qs →
        r.precision = .seq (resolveSeq qs results)) := by
  obtain ⟨hval, results', gs, hest', hgr, hgrad, hmeta⟩ :=
    runUnique_ok_inv est cs os vs ps prec r hout
  rw [hest] at hest'
  injection hest' with he
  subst he
  refine ⟨?_, ?_, ?_⟩
  · intro p hp
    subst hp
    cases cs with
    | nil =>
      rw [runUnique_transformed_nil est os vs ps (.scalar p) results gs rfl
        hval hest hgr] at hout
      exact Except.noConfusion hout
    | cons c cs' =>
      rw [runUnique_scalar_cons est c cs' os vs ps p results gs hval hest hgr]
        at hout
      injection hout with h
      subst h
      rfl
  · intro hp
    subst hp
    cases cs with
    | nil =>
      rw [runUnique_transformed_nil est os vs ps .noPrec results gs rfl hval
        hest hgr] at hout
      exact Except.noConfusion hout
    | cons c cs' =>
      cases results with
      | nil =>
        rw [runUnique_noPrec_cons_nilres est c cs' os vs ps hval hest] at hout
        exact Except.noConfusion hout
      | cons r0 rest =>
        rw [runUnique_noPrec_cons est c cs' os vs ps r0 rest gs hval hest hgr]
          at hout
        injection hout with h
        subst h
        exact ⟨r0, rest, rfl, rfl⟩
  · intro qs hq
    subst hq
    have hval2 : lengthsOk cs os vs ps qs := hval
    rw [runUnique_seq est cs os vs ps qs results gs hval2 hest hgr] at hout
    injection hout with h
    subst h
    rfl

/-! ### The claims -/

/-- C1: for every circuit whose batched evaluation returns an expectation-value
vector of length `2k` (`k` = number of shifted parameters), the returned
gradient vector for that circuit equals elementwise
`gradient[i] = (value[i] − value[i+k]) / 2` for every `i < k`. -/
theorem c1_param_shift_rule {ε : Type}
    (est : List Pub → Except ε (List PubResult))
    (cs : List Circuit) (os : List Obs) (vs : List (List PVal))
    (ps : List (List Nat)) (prec : PrecisionIn) (r : EstimatorGradientResult)
    (results : List PubResult)
    (hest : est (pubsOf cs os vs ps prec) = Except.ok results)
    (hout : (runUnique est cs os vs ps prec).result = Except.ok r)
    (j : Nat) (res : PubResult) (hres : results[j]? = some res)
    (c : Circuit) (hc : cs[j]? = some c)
    (pj : List Nat) (hpj : ps[j]? = some pj)
    (k : Nat) (hk : k = (selectedIndices c pj).length)
    (hlen : res.evs.length = 2 * k)
    (i : Nat) (hi : i < k) (a b : ℚ)
    (ha : res.evs[i]? = some a) (hb : res.evs[i + k]? = some b) :
    ∃ g, r.gradients[j]? = some g ∧ g.length = k ∧
      g[i]? = some ((a - b) / 2) := by
  obtain ⟨hval, results', gs, hest', hgr, hgrad, hmeta⟩ :=
    runUnique_ok_inv est cs os vs ps prec r hout
  rw [hest] at hest'
  injection hest' with he
  subst he
  obtain ⟨g, hg1, hg2⟩ := computeGradients_getElem? results gs hgr j res hres
  obtain ⟨g', hg', hglen, hgi⟩ :=
    gradOfEvs_getElem? res.evs k hlen i hi a b ha hb
  rw [hg2] at hg'
  injection hg' with hgg
  subst hgg
  refine ⟨g, ?_, hglen, hgi⟩
  rw [hgrad]
  exact hg1

/-- C1 witness: a one-parameter circuit with mocked expectation values `[3, 1]`
yields gradient `[(3 − 1) / 2] = [1]`. -/
theorem c1_witness :
    estConst [3, 1] 7
        (pubsOf [⟨[0]⟩] [0] [[((0 : ℚ), (0 : ℤ))]] [[0]] (.scalar (1 / 10))) =
      Except.ok [⟨[3, 1], 7⟩] ∧
    (runUnique (estConst [3, 1] 7) [⟨[0]⟩] [0] [[((0 : ℚ), (0 : ℤ))]] [[0]]
        (.scalar (1 / 10))).result =
      Except.ok ⟨[[1]], [[0]], .scalar (1 / 10)⟩ ∧
    ([⟨[3, 1], 7⟩] : List PubResult)[0]? = some ⟨[3, 1], 7⟩ ∧
    ([⟨[0]⟩] : List Circuit)[0]? = some ⟨[0]⟩ ∧
    ([[0]] : List (List Nat))[0]? = some [0] ∧
    1 = (selectedIndices ⟨[0]⟩ [0]).length ∧
    (PubResult.mk [3, 1] 7).evs.length = 2 * 1 ∧
    0 < 1 ∧
    (PubResult.mk [3, 1] 7).evs[0]? = some 3 ∧
    (PubResult.mk [3, 1] 7).evs[0 + 1]? = some 1 ∧
    ∃ g, (EstimatorGradientResult.mk [[1]] [[0]]
        (.scalar (1 / 10))).gradients[0]? = some g ∧ g.length = 1 ∧
      g[0]? = some ((3 - 1) / 2) := by
  have hest : estConst [3, 1] 7
      (pubsOf [⟨[0]⟩] [0] [[((0 : ℚ), (0 : ℤ))]] [[0]] (.scalar (1 / 10))) =
      Except.ok [⟨[3, 1], 7⟩] := by
    norm_num [estConst, pubsOf, buildPubs, precListOf,
      make_param_shift_parameter_values, selectedIndices, shiftAt]
  have hout : (runUnique (estConst [3, 1] 7) [⟨[0]⟩] [0]
      [[((0 : ℚ), (0 : ℤ))]] [[0]] (.scalar (1 / 10))).result =
      Except.ok ⟨[[1]], [[0]], .scalar (1 / 10)⟩ := by
    norm_num [runUnique, estConst, pubsOf, buildPubs, precListOf,
      make_param_shift_parameter_values, selectedIndices, shiftAt,
      computeGradients, gradOfEvs, npSub, hasTransformedOf, lengthsOk,
      List.replicate]
  exact ⟨hest, hout, rfl, rfl, rfl, rfl, rfl, Nat.zero_lt_one, rfl, rfl,
    c1_param_shift_rule (estConst [3, 1] 7) [⟨[0]⟩] [0]
      [[((0 : ℚ), (0 : ℤ))]] [[0]] (.scalar (1 / 10))
      ⟨[[1]], [[0]], .scalar (1 / 10)⟩ [⟨[3, 1], 7⟩] hest hout 0 ⟨[3, 1], 7⟩
      rfl ⟨[0]⟩ rfl [0] rfl 1 rfl rfl 0 Nat.zero_lt_one 3 1 rfl rfl⟩

/-- C3: when the estimator job fails with exception `e`, the gradient
computation raises `AlgorithmError` whose cause is `e`; nothing else escapes
the batch-evaluation step. -/
theorem c3_algorithm_error_wraps_cause {ε : Type}
    (est : List Pub → Except ε (List PubResult))
    (cs : List Circuit) (os : List Obs) (vs : List (List PVal))
    (ps : List (List Nat)) (prec : PrecisionIn) (e : ε)
    (hval : lengthsOk cs os vs ps (precListOf prec cs.length))
    (hest : est (pubsOf cs os vs ps prec) = Except.error e) :
    (runUnique est cs os vs ps prec).result =
      Except.error (Err.algorithmError e) := by
  rw [runUnique_est_error est cs os vs ps prec e hval hest]

/-- C3 witness: a failing estimator job on a well-formed one-circuit input
surfaces as `AlgorithmError` with cause `42`. -/
theorem c3_witness :
    lengthsOk [⟨[0]⟩] [0] [[((0 : ℚ), (0 : ℤ))]] [[0]]
        (precListOf (.scalar (1 / 10)) ([⟨[0]⟩] : List Circuit).length) ∧
    estFail (pubsOf [⟨[0]⟩] [0] [[((0 : ℚ), (0 : ℤ))]] [[0]]
        (.scalar (1 / 10))) = Except.error 42 ∧
    (runUnique estFail [⟨[0]⟩] [0] [[((0 : ℚ), (0 : ℤ))]] [[0]]
        (.scalar (1 / 10))).result =
      Except.error (Err.algorithmError 42) :=
  ⟨by decide, rfl,
    c3_algorithm_error_wraps_cause estFail [⟨[0]⟩] [0]
      [[((0 : ℚ), (0 : ℤ))]] [[0]] (.scalar (1 / 10)) 42 (by decide) rfl⟩

/-- C5: a scalar precision is carried by every submitted pub and is reported
back as the resolved precision of the result. -/
theorem c5_scalar_broadcast {ε : Type}
    (est : List Pub → Except ε (List PubResult))
    (cs : List Circuit) (os : List Obs) (vs : List (List PVal))
    (ps : List (List Nat)) (p : ℚ) (r : EstimatorGradientResult)
    (results : List PubResult)
    (hest : est (pubsOf cs os vs ps (.scalar p)) = Except.ok results)
    (hout : (runUnique est cs os vs ps (.scalar p)).result = Except.ok r) :
    (∀ pub ∈ pubsOf cs os vs ps (.scalar p), pub.precision = some p) ∧
      r.precision = .scalar p := by
  constructor
  · intro pub hmem
    exact buildPubs_precision_mem cs os vs ps cs.length p pub
      (by simpa [pubsOf, precListOf] using hmem)
  · exact (runUnique_ok_precision est cs os vs ps (.scalar p) r results hest
      hout).1 p rfl

/-- C5 witness: with two circuits and scalar precision `1/10`, both pubs carry
`1/10` and the result resolves to the scalar `1/10`. -/
theorem c5_witness :
    estConst [3, 1] 7 (pubsOf [⟨[0]⟩, ⟨[0]⟩] [0, 0]
        [[((0 : ℚ), (0 : ℤ))], [((0 : ℚ), (0 : ℤ))]] [[0], [0]]
        (.scalar (1 / 10))) =
      Except.ok [⟨[3, 1], 7⟩, ⟨[3, 1], 7⟩] ∧
    (runUnique (estConst [3, 1] 7) [⟨[0]⟩, ⟨[0]⟩] [0, 0]
        [[((0 : ℚ), (0 : ℤ))], [((0 : ℚ), (0 : ℤ))]] [[0], [0]]
        (.scalar (1 / 10))).result =
      Except.ok ⟨[[1], [1]], [[0], [0]], .scalar (1 / 10)⟩ ∧
    ((∀ pub ∈ pubsOf [⟨[0]⟩, ⟨[0]⟩] [0, 0]
        [[((0 : ℚ), (0 : ℤ))], [((0 : ℚ), (0 : ℤ))]] [[0], [0]]
        (.scalar (1 / 10)), pub.precision = some (1 / 10)) ∧
      (EstimatorGradientResult.mk [[1], [1]] [[0], [0]]
        (.scalar (1 / 10))).precision = .scalar (1 / 10)) :=
  by
  have hest : estConst [3, 1] 7 (pubsOf [⟨[0]⟩, ⟨[0]⟩] [0, 0]
      [[((0 : ℚ), (0 : ℤ))], [((0 : ℚ), (0 : ℤ))]] [[0], [0]]
      (.scalar (1 / 10))) = Except.ok [⟨[3, 1], 7⟩, ⟨[3, 1], 7⟩] := by
    norm_num [estConst, pubsOf, buildPubs, precListOf,
      make_param_shift_parameter_values, selectedIndices, shiftAt]
  have hout : (runUnique (estConst [3, 1] 7) [⟨[0]⟩, ⟨[0]⟩] [0, 0]
      [[((0 : ℚ), (0 : ℤ))], [((0 : ℚ), (0 : ℤ))]] [[0], [0]]
      (.scalar (1 / 10))).result =
      Except.ok ⟨[[1], [1]], [[0], [0]], .scalar (1 / 10)⟩ := by
    norm_num [runUnique, estConst, pubsOf, buildPubs, precListOf,
      make_param_shift_parameter_values, selectedIndices, shiftAt,
      computeGradients, gradOfEvs, npSub, hasTransformedOf, lengthsOk,
      List.replicate]
  exact ⟨hest, hout,
    c5_scalar_broadcast (estConst [3, 1] 7) [⟨[0]⟩, ⟨[0]⟩] [0, 0]
      [[((0 : ℚ), (0 : ℤ))], [((0 : ℚ), (0 : ℤ))]] [[0], [0]] (1 / 10)
      ⟨[[1], [1]], [[0], [0]], .scalar (1 / 10)⟩
      [⟨[3, 1], 7⟩, ⟨[3, 1], 7⟩] hest hout⟩

/-- C8: on every successful call, the metadata of the result records, per
circuit index, exactly the parameter subset requested for that circuit. -/
theorem c8_metadata_records_parameters {ε : Type}
    (est : List Pub → Except ε (List PubResult))
    (cs : List Circuit) (os : List Obs) (vs : List (List PVal))
    (ps : List (List Nat)) (prec : PrecisionIn) (r : EstimatorGradientResult)
    (hout : (runUnique est cs os vs ps prec).result = Except.ok r) :
    r.metadata = ps :=
  (runUnique_ok_inv est cs os vs ps prec r hout).2.choose_spec.choose_spec.2.2.2

/-- C8 witness: the metadata of a successful two-circuit call records the two
requested parameter subsets in order. -/
theorem c8_witness :
    (runUnique (estConst [3, 1] 7) [⟨[0, 1]⟩, ⟨[2]⟩] [0, 0]
        [[((0 : ℚ), (0 : ℤ)), ((5 : ℚ), (0 : ℤ))], [((0 : ℚ), (0 : ℤ))]]
        [[1], [2]] (.scalar (1 / 10))).result =
      Except.ok ⟨[[1], [1]], [[1], [2]], .scalar (1 / 10)⟩ ∧
    (EstimatorGradientResult.mk [[1], [1]] [[1], [2]]
        (.scalar (1 / 10))).metadata = [[1], [2]] :=
  by
  have hout : (runUnique (estConst [3, 1] 7) [⟨[0, 1]⟩, ⟨[2]⟩] [0, 0]
      [[((0 : ℚ), (0 : ℤ)), ((5 : ℚ), (0 : ℤ))], [((0 : ℚ), (0 : ℤ))]]
      [[1], [2]] (.scalar (1 / 10))).result =
      Except.ok ⟨[[1], [1]], [[1], [2]], .scalar (1 / 10)⟩ := by
    norm_num [runUnique, estConst, pubsOf, buildPubs, precListOf,
      make_param_shift_parameter_values, selectedIndices, shiftAt,
      computeGradients, gradOfEvs, npSub, hasTransformedOf, lengthsOk,
      List.replicate]
  exact ⟨hout,
    c8_metadata_records_parameters (estConst [3, 1] 7) [⟨[0, 1]⟩, ⟨[2]⟩]
      [0, 0] [[((0 : ℚ), (0 : ℤ)), ((5 : ℚ), (0 : ℤ))], [((0 : ℚ), (0 : ℤ))]]
      [[1], [2]] (.scalar (1 / 10))
      ⟨[[1], [1]], [[1], [2]], .scalar (1 / 10)⟩ hout⟩

/-- C2 counterexample: with a transpiler configured, two circuits and one
observable, the call fails with the validation `ValueError`, yet the
transpiler service has already been invoked before the error is raised. -/
theorem c2_counterexample :
    (run (estConst [] 0) (some idTranspiler) keepLayout [⟨[0]⟩, ⟨[0]⟩] [0]
        [[], []] [[0], [0]] .noPrec).result = Except.error Err.valueError ∧
    (run (estConst [] 0) (some idTranspiler) keepLayout [⟨[0]⟩, ⟨[0]⟩] [0]
        [[], []] [[0], [0]] .noPrec).transpilerCalled = true :=
  ⟨rfl, rfl⟩

/-- C2 (amended): mismatched input lengths raise the validation `ValueError`,
and they do so before the batched estimator service is invoked; the transpiler
preprocessing, when configured, may already have run at that point. -/
theorem c2_validation_before_estimator {ε : Type}
    (est : List Pub → Except ε (List PubResult))
    (tr : Option (List Circuit → List Circuit)) (al : Circuit → Obs → Obs)
    (cs : List Circuit) (os : List Obs) (vs : List (List PVal))
    (ps : List (List Nat)) (prec : PrecisionIn)
    (h : ¬ lengthsOk (transpiledCircuits tr cs)
      (transpiledObservables tr al cs os) vs ps
      (precListOf prec (transpiledCircuits tr cs).length)) :
    (run est tr al cs os vs ps prec).result = Except.error Err.valueError ∧
      (run est tr al cs os vs ps prec).estimatorCalls = [] := by
  have hru := runUnique_not_valid est (transpiledCircuits tr cs)
    (transpiledObservables tr al cs os) vs ps prec h
  refine ⟨?_, ?_⟩ <;> simp [run_eq, hru, Except.map, postprocess]

/-- C2 witness for the amended claim: two circuits, one observable, estimator
never invoked. -/
theorem c2_validation_witness :
    ¬ lengthsOk (transpiledCircuits (some idTranspiler) [⟨[0]⟩, ⟨[0]⟩])
        (transpiledObservables (some idTranspiler) keepLayout
          [⟨[0]⟩, ⟨[0]⟩] [0]) [[], []] [[0], [0]]
        (precListOf .noPrec
          (transpiledCircuits (some idTranspiler) [⟨[0]⟩, ⟨[0]⟩]).length) ∧
    ((run (estConst [] 0) (some idTranspiler) keepLayout [⟨[0]⟩, ⟨[0]⟩] [0]
        [[], []] [[0], [0]] .noPrec).result = Except.error Err.valueError ∧
      (run (estConst [] 0) (some idTranspiler) keepLayout [⟨[0]⟩, ⟨[0]⟩] [0]
        [[], []] [[0], [0]] .noPrec).estimatorCalls = []) :=
  ⟨by decide,
    c2_validation_before_estimator (estConst [] 0) (some idTranspiler)
      keepLayout [⟨[0]⟩, ⟨[0]⟩] [0] [[], []] [[0], [0]] .noPrec (by decide)⟩

/-- C4 counterexample: with two circuits and a scalar requested precision the
call succeeds, but the precision component of the result is the resolved
scalar — not a sequence of length 2 as the claim demands of all three output
components. -/
theorem c4_counterexample :
    resultOk (runUnique (estConst [3, 1] 7) [⟨[0]⟩, ⟨[0]⟩] [0, 0]
        [[((0 : ℚ), (0 : ℤ))], [((0 : ℚ), (0 : ℤ))]] [[0], [0]]
        (.scalar (1 / 10))) =
      some ⟨[[1], [1]], [[0], [0]], .scalar (1 / 10)⟩ ∧
    precisionSeqLength (resultOk (runUnique (estConst [3, 1] 7)
        [⟨[0]⟩, ⟨[0]⟩] [0, 0]
        [[((0 : ℚ), (0 : ℤ))], [((0 : ℚ), (0 : ℤ))]] [[0], [0]]
        (.scalar (1 / 10)))) ≠ some 2 := by
  have hout : (runUnique (estConst [3, 1] 7) [⟨[0]⟩, ⟨[0]⟩] [0, 0]
      [[((0 : ℚ), (0 : ℤ))], [((0 : ℚ), (0 : ℤ))]] [[0], [0]]
      (.scalar (1 / 10))).result =
      Except.ok ⟨[[1], [1]], [[0], [0]], .scalar (1 / 10)⟩ := by
    norm_num [runUnique, estConst, pubsOf, buildPubs, precListOf,
      make_param_shift_parameter_values, selectedIndices, shiftAt,
      computeGradients, gradOfEvs, npSub, hasTransformedOf, lengthsOk,
      List.replicate]
  constructor
  · simp only [resultOk, hout, Except.toOption]
  · simp only [resultOk, precisionSeqLength, hout, Except.toOption]
    exact fun h => Option.noConfusion h

/-- C4 (amended): for valid equal-length inputs (with the estimator returning
one result per pub), the gradients and metadata sequences have length equal to
the number of circuits; the precision component is a per-circuit sequence of
that length when a per-circuit sequence was supplied, and a single resolved
scalar when the precision was a scalar or unspecified. -/
theorem c4_output_lengths {ε : Type}
    (est : List Pub → Except ε (List PubResult))
    (cs : List Circuit) (os : List Obs) (vs : List (List PVal))
    (ps : List (List Nat)) (prec : PrecisionIn) (r : EstimatorGradientResult)
    (results : List PubResult)
    (hest : est (pubsOf cs os vs ps prec) = Except.ok results)
    (hres : results.length = cs.length)
    (hout : (runUnique est cs os vs ps prec).result = Except.ok r) :
    r.gradients.length = cs.length ∧ r.metadata.length = cs.length ∧
      (∀ qs, prec = .seq qs →
        ∃ l, r.precision = .seq l ∧ l.length = cs.length) ∧
      (hasTransformedOf prec = true → ∃ q, r.precision = .scalar q) := by
  obtain ⟨hval, results', gs, hest', hgr, hgrad, hmeta⟩ :=
    runUnique_ok_inv est cs os vs ps prec r hout
  rw [hest] at hest'
  injection hest' with he
  subst he
  obtain ⟨hsc, hnp, hsq⟩ :=
    runUnique_ok_precision est cs os vs ps prec r results hest hout
  refine ⟨?_, ?_, ?_, ?_⟩
  · rw [hgrad, computeGradients_length results gs hgr]
    exact hres
  · rw [hmeta]
    exact hval.2.1.symm
  · intro qs hq
    refine ⟨resolveSeq qs results, hsq qs hq, ?_⟩
    rw [resolveSeq_length]
    subst hq
    exact hval.2.2.2.symm
  · intro htr
    cases prec with
    | scalar p => exact ⟨p, hsc p rfl⟩
    | noPrec =>
      obtain ⟨r0, rest, _, hpr⟩ := hnp rfl
      exact ⟨r0.target_precision, hpr⟩
    | seq qs => simp [hasTransformedOf] at htr

/-- C4 witness for the amended claim: a one-circuit per-circuit-precision call
with one returned result. -/
theorem c4_output_lengths_witness :
    estConst [3, 1] 7 (pubsOf [⟨[0]⟩] [0] [[((0 : ℚ), (0 : ℤ))]] [[0]]
        (.seq [some (1 / 5)])) = Except.ok [⟨[3, 1], 7⟩] ∧
    ([⟨[3, 1], 7⟩] : List PubResult).length =
      ([⟨[0]⟩] : List Circuit).length ∧
    (runUnique (estConst [3, 1] 7) [⟨[0]⟩] [0] [[((0 : ℚ), (0 : ℤ))]] [[0]]
        (.seq [some (1 / 5)])).result =
      Except.ok ⟨[[1]], [[0]], .seq [some (1 / 5)]⟩ ∧
    ((EstimatorGradientResult.mk [[1]] [[0]]
        (.seq [some (1 / 5)])).gradients.length =
      ([⟨[0]⟩] : List Circuit).length ∧
    (EstimatorGradientResult.mk [[1]] [[0]]
        (.seq [some (1 / 5)])).metadata.length =
      ([⟨[0]⟩] : List Circuit).length ∧
      (∀ qs, PrecisionIn.seq [some (1 / 5)] = PrecisionIn.seq qs →
        ∃ l, (EstimatorGradientResult.mk [[1]] [[0]]
          (.seq [some (1 / 5)])).precision = .seq l ∧
          l.length = ([⟨[0]⟩] : List Circuit).length) ∧
      (hasTransformedOf (PrecisionIn.seq [some (1 / 5)]) = true →
        ∃ q, (EstimatorGradientResult.mk [[1]] [[0]]
          (.seq [some (1 / 5)])).precision = .scalar q)) := by
  have hest : estConst [3, 1] 7 (pubsOf [⟨[0]⟩] [0] [[((0 : ℚ), (0 : ℤ))]]
      [[0]] (.seq [some (1 / 5)])) = Except.ok [⟨[3, 1], 7⟩] := by
    norm_num [estConst, pubsOf, buildPubs, precListOf,
      make_param_shift_parameter_values, selectedIndices, shiftAt]
  have hout : (runUnique (estConst [3, 1] 7) [⟨[0]⟩] [0]
      [[((0 : ℚ), (0 : ℤ))]] [[0]] (.seq [some (1 / 5)])).result =
      Except.ok ⟨[[1]], [[0]], .seq [some (1 / 5)]⟩ := by
    norm_num [runUnique, estConst, pubsOf, buildPubs, precListOf,
      make_param_shift_parameter_values, selectedIndices, shiftAt,
      computeGradients, gradOfEvs, npSub, hasTransformedOf, lengthsOk,
      List.replicate, resolveSeq]
  exact ⟨hest, rfl, hout,
    c4_output_lengths (estConst [3, 1] 7) [⟨[0]⟩] [0]
      [[((0 : ℚ), (0 : ℤ))]] [[0]] (.seq [some (1 / 5)])
      ⟨[[1]], [[0]], .seq [some (1 / 5)]⟩ [⟨[3, 1], 7⟩] hest rfl hout⟩

/-- C6: when the precision is unspecified — `None` globally, or a `None` entry
of a per-circuit sequence — the resolved precision of the result equals the
`target_precision` metadata entry read back from the returned results. -/
theorem c6_unspecified_precision_from_metadata {ε : Type}
    (est : List Pub → Except ε (List PubResult))
    (cs : List Circuit) (os : List Obs) (vs : List (List PVal))
    (ps : List (List Nat)) (prec : PrecisionIn) (r : EstimatorGradientResult)
    (results : List PubResult) (i : Nat)
    (hest : est (pubsOf cs os vs ps prec) = Except.ok results)
    (hout : (runUnique est cs os vs ps prec).result = Except.ok r) :
    (prec = .noPrec → ∀ res0, results[0]? = some res0 →
      resolvedPrecisionAt r.precision i = some res0.target_precision) ∧
      (∀ qs, prec = .seq qs → qs[i]? = some none →
        ∀ res, results[i]? = some res →
          resolvedPrecisionAt r.precision i = some res.target_precision) := by
  obtain ⟨hsc, hnp, hsq⟩ :=
    runUnique_ok_precision est cs os vs ps prec r results hest hout
  constructor
  · intro hp res0 h0
    obtain ⟨r0, rest, hres, hpr⟩ := hnp hp
    subst hres
    simp only [List.getElem?_cons_zero, Option.some_inj] at h0
    subst h0
    rw [hpr]
    rfl
  · intro qs hq hqi res hres
    rw [hsq qs hq]
    simp [resolvedPrecisionAt,
      resolveSeq_getElem?_none qs results i res hqi hres]

/-- C6 witness: a globally-unspecified precision resolves to the default `7`
read back from the result metadata. -/
theorem c6_witness :
    estConst [3, 1] 7
        (pubsOf [⟨[0]⟩] [0] [[((0 : ℚ), (0 : ℤ))]] [[0]] .noPrec) =
      Except.ok [⟨[3, 1], 7⟩] ∧
    (runUnique (estConst [3, 1] 7) [⟨[0]⟩] [0] [[((0 : ℚ), (0 : ℤ))]] [[0]]
        .noPrec).result = Except.ok ⟨[[1]], [[0]], .scalar 7⟩ ∧
    resolvedPrecisionAt (PrecisionOut.scalar 7) 0 = some 7 := by
  have hest : estConst [3, 1] 7
      (pubsOf [⟨[0]⟩] [0] [[((0 : ℚ), (0 : ℤ))]] [[0]] .noPrec) =
      Except.ok [⟨[3, 1], 7⟩] := by
    norm_num [estConst, pubsOf, buildPubs, precListOf,
      make_param_shift_parameter_values, selectedIndices, shiftAt,
      List.replicate]
  have hout : (runUnique (estConst [3, 1] 7) [⟨[0]⟩] [0]
      [[((0 : ℚ), (0 : ℤ))]] [[0]] .noPrec).result =
      Except.ok ⟨[[1]], [[0]], .scalar 7⟩ := by
    norm_num [runUnique, estConst, pubsOf, buildPubs, precListOf,
      make_param_shift_parameter_values, selectedIndices, shiftAt,
      computeGradients, gradOfEvs, npSub, hasTransformedOf, lengthsOk,
      List.replicate]
  exact ⟨hest, hout,
    (c6_unspecified_precision_from_metadata (estConst [3, 1] 7) [⟨[0]⟩] [0]
      [[((0 : ℚ), (0 : ℤ))]] [[0]] .noPrec ⟨[[1]], [[0]], .scalar 7⟩
      [⟨[3, 1], 7⟩] 0 hest hout).1 rfl ⟨[3, 1], 7⟩ rfl⟩

/-- C7: for each circuit, exactly two shifted parameter-value assignments are
produced per selected parameter — the `+π/2` shift at positions `i < k` and
the `−π/2` shift at positions `k + i` — and all circuits' shifted assignments
are concatenated into a single batched estimator call. -/
theorem c7_two_shifts_single_batch {ε : Type}
    (est : List Pub → Except ε (List PubResult))
    (cs : List Circuit) (os : List Obs) (vs : List (List PVal))
    (ps : List (List Nat)) (prec : PrecisionIn)
    (hval : lengthsOk cs os vs ps (precListOf prec cs.length)) :
    (runUnique est cs os vs ps prec).estimatorCalls =
      [pubsOf cs os vs ps prec] ∧
    (pubsOf cs os vs ps prec).length = cs.length ∧
    ∀ (j : Nat) (c : Circuit) (v : List PVal) (pj : List Nat),
      cs[j]? = some c → vs[j]? = some v → ps[j]? = some pj →
      ∃ pub : Pub, (pubsOf cs os vs ps prec)[j]? = some pub ∧
        pub.circuit = c ∧
        pub.paramValues = make_param_shift_parameter_values c v pj ∧
        pub.paramValues.length = 2 * (selectedIndices c pj).length ∧
        ∀ i idx, (selectedIndices c pj)[i]? = some idx →
          pub.paramValues[i]? = some (shiftAt v idx 1) ∧
          pub.paramValues[i + (selectedIndices c pj).length]? =
            some (shiftAt v idx (-1)) := by
  obtain ⟨h1, h2, h3, h4⟩ := hval
  refine ⟨runUnique_estimatorCalls est cs os vs ps prec ⟨h1, h2, h3, h4⟩,
    buildPubs_length cs os vs ps (precListOf prec cs.length) h1 h3 h2 h4,
    ?_⟩
  intro j c v pj hc hv hp
  have hjlt : j < cs.length := getElem?_lt cs j c hc
  have hjo : j < os.length := by omega
  have hjr : j < (precListOf prec cs.length).length := by omega
  obtain ⟨o, ho⟩ : ∃ o, os[j]? = some o := ⟨_, List.getElem?_eq_getElem hjo⟩
  obtain ⟨pr, hr⟩ : ∃ pr, (precListOf prec cs.length)[j]? = some pr :=
    ⟨_, List.getElem?_eq_getElem hjr⟩
  refine ⟨⟨c, o, make_param_shift_parameter_values c v pj, pr⟩,
    buildPubs_getElem? cs os vs ps (precListOf prec cs.length) j c o v pj pr
      hc ho hv hp hr,
    rfl, rfl, make_param_shift_length c v pj, ?_⟩
  intro i idx hidx
  exact ⟨make_param_shift_getElem?_plus c v pj i idx hidx,
    make_param_shift_getElem?_minus c v pj i idx hidx⟩

/-- C7 witness: a circuit with two parameters, one selected, generates the two
`±π/2`-shifted assignments and a single one-pub batch. -/
theorem c7_witness :
    lengthsOk [⟨[0, 1]⟩] [0] [[((0 : ℚ), (0 : ℤ)), ((5 : ℚ), (0 : ℤ))]]
        [[1]] (precListOf .noPrec ([⟨[0, 1]⟩] : List Circuit).length) ∧
    ((runUnique (estConst [3, 1] 7) [⟨[0, 1]⟩] [0]
        [[((0 : ℚ), (0 : ℤ)), ((5 : ℚ), (0 : ℤ))]] [[1]]
        .noPrec).estimatorCalls =
      [pubsOf [⟨[0, 1]⟩] [0] [[((0 : ℚ), (0 : ℤ)), ((5 : ℚ), (0 : ℤ))]]
        [[1]] .noPrec] ∧
    (pubsOf [⟨[0, 1]⟩] [0] [[((0 : ℚ), (0 : ℤ)), ((5 : ℚ), (0 : ℤ))]]
        [[1]] .noPrec).length = ([⟨[0, 1]⟩] : List Circuit).length ∧
    ∀ (j : Nat) (c : Circuit) (v : List PVal) (pj : List Nat),
      ([⟨[0, 1]⟩] : List Circuit)[j]? = some c →
      ([[((0 : ℚ), (0 : ℤ)), ((5 : ℚ), (0 : ℤ))]] :
        List (List PVal))[j]? = some v →
      ([[1]] : List (List Nat))[j]? = some pj →
      ∃ pub : Pub, (pubsOf [⟨[0, 1]⟩] [0]
          [[((0 : ℚ), (0 : ℤ)), ((5 : ℚ), (0 : ℤ))]] [[1]] .noPrec)[j]? =
          some pub ∧
        pub.circuit = c ∧
        pub.paramValues = make_param_shift_parameter_values c v pj ∧
        pub.paramValues.length = 2 * (selectedIndices c pj).length ∧
        ∀ i idx, (selectedIndices c pj)[i]? = some idx →
          pub.paramValues[i]? = some (shiftAt v idx 1) ∧
          pub.paramValues[i + (selectedIndices c pj).length]? =
            some (shiftAt v idx (-1))) :=
  ⟨by decide,
    c7_two_shifts_single_batch (estConst [3, 1] 7) [⟨[0, 1]⟩] [0]
      [[((0 : ℚ), (0 : ℤ)), ((5 : ℚ), (0 : ℤ))]] [[1]] .noPrec (by decide)⟩

/-- C9: a caller-supplied per-circuit precision sequence with a `None` entry is
mutated in place — after a successful call the caller's sequence holds the
service default at that entry and is no longer equal to the sequence passed
in. -/
theorem c9_inplace_mutation {ε : Type}
    (est : List Pub → Except ε (List PubResult))
    (cs : List Circuit) (os : List Obs) (vs : List (List PVal))
    (ps : List (List Nat)) (qs : List (Option ℚ))
    (r : EstimatorGradientResult) (results : List PubResult) (i : Nat)
    (res : PubResult)
    (hest : est (pubsOf cs os vs ps (.seq qs)) = Except.ok results)
    (hout : (runUnique est cs os vs ps (.seq qs)).result = Except.ok r)
    (hq : qs[i]? = some none) (hres : results[i]? = some res) :
    (runUnique est cs os vs ps (.seq qs)).callerPrecision =
      .seq (resolveSeq qs results) ∧
    (resolveSeq qs results)[i]? = some (some res.target_precision) ∧
    (runUnique est cs os vs ps (.seq qs)).callerPrecision ≠ .seq qs := by
  obtain ⟨hval, results', gs, hest', hgr, hgrad, hmeta⟩ :=
    runUnique_ok_inv est cs os vs ps (.seq qs) r hout
  rw [hest] at hest'
  injection hest' with he
  subst he
  have hval2 : lengthsOk cs os vs ps qs := hval
  have hrw := runUnique_seq est cs os vs ps qs results gs hval2 hest hgr
  have hgetr := resolveSeq_getElem?_none qs results i res hq hres
  refine ⟨by rw [hrw], hgetr, ?_⟩
  rw [hrw]
  intro hcontra
  injection hcontra with hl
  rw [hl, hq] at hgetr
  exact Option.noConfusion (Option.some.inj hgetr)

/-- C9 witness: the caller's `[None]` sequence is overwritten to `[7]`. -/
theorem c9_witness :
    estConst [3, 1] 7 (pubsOf [⟨[0]⟩] [0] [[((0 : ℚ), (0 : ℤ))]] [[0]]
        (.seq [none])) = Except.ok [⟨[3, 1], 7⟩] ∧
    (runUnique (estConst [3, 1] 7) [⟨[0]⟩] [0] [[((0 : ℚ), (0 : ℤ))]] [[0]]
        (.seq [none])).result =
      Except.ok ⟨[[1]], [[0]], .seq [some 7]⟩ ∧
    ([none] : List (Option ℚ))[0]? = some none ∧
    ([⟨[3, 1], 7⟩] : List PubResult)[0]? = some ⟨[3, 1], 7⟩ ∧
    ((runUnique (estConst [3, 1] 7) [⟨[0]⟩] [0] [[((0 : ℚ), (0 : ℤ))]] [[0]]
        (.seq [none])).callerPrecision =
      .seq (resolveSeq [none] [⟨[3, 1], 7⟩]) ∧
    (resolveSeq [none] [⟨[3, 1], 7⟩])[0]? =
      some (some (PubResult.mk [3, 1] 7).target_precision) ∧
    (runUnique (estConst [3, 1] 7) [⟨[0]⟩] [0] [[((0 : ℚ), (0 : ℤ))]] [[0]]
        (.seq [none])).callerPrecision ≠ .seq [none]) := by
  have hest : estConst [3, 1] 7 (pubsOf [⟨[0]⟩] [0] [[((0 : ℚ), (0 : ℤ))]]
      [[0]] (.seq [none])) = Except.ok [⟨[3, 1], 7⟩] := by
    norm_num [estConst, pubsOf, buildPubs, precListOf,
      make_param_shift_parameter_values, selectedIndices, shiftAt]
  have hout : (runUnique (estConst [3, 1] 7) [⟨[0]⟩] [0]
      [[((0 : ℚ), (0 : ℤ))]] [[0]] (.seq [none])).result =
      Except.ok ⟨[[1]], [[0]], .seq [some 7]⟩ := by
    norm_num [runUnique, estConst, pubsOf, buildPubs, precListOf,
      make_param_shift_parameter_values, selectedIndices, shiftAt,
      computeGradients, gradOfEvs, npSub, hasTransformedOf, lengthsOk,
      List.replicate, resolveSeq]
  exact ⟨hest, hout, rfl, rfl,
    c9_inplace_mutation (estConst [3, 1] 7) [⟨[0]⟩] [0]
      [[((0 : ℚ), (0 : ℤ))]] [[0]] [none] ⟨[[1]], [[0]], .seq [some 7]⟩
      [⟨[3, 1], 7⟩] 0 ⟨[3, 1], 7⟩ hest hout rfl rfl⟩

/-- C10: on the empty input with a scalar or unspecified precision, the batch
job is submitted (and completes), yet the routine does not return an empty
result: it raises `IndexError` reading `precision[0]` of the empty broadcast
list. -/
theorem c10_empty_input_index_error {ε : Type}
    (est : List Pub → Except ε (List PubResult)) (prec : PrecisionIn)
    (hprec : (∃ p, prec = PrecisionIn.scalar p) ∨ prec = PrecisionIn.noPrec)
    (hest : est (pubsOf [] [] [] [] prec) = Except.ok []) :
    (runUnique est [] [] [] [] prec).result = Except.error Err.indexError ∧
      (runUnique est [] [] [] [] prec).estimatorCalls =
        [pubsOf [] [] [] [] prec] := by
  have htr : hasTransformedOf prec = true := by
    rcases hprec with ⟨p, hp⟩ | hp <;> subst hp <;> rfl
  have hval : lengthsOk ([] : List Circuit) [] [] [] (precListOf prec 0) := by
    rcases hprec with ⟨p, hp⟩ | hp <;> subst hp <;> exact ⟨rfl, rfl, rfl, rfl⟩
  have hrw := runUnique_transformed_nil est [] [] [] prec [] [] htr hval
    hest rfl
  exact ⟨by rw [hrw], by rw [hrw]⟩

/-- C10 witness: the empty input with scalar precision `1` raises
`IndexError` after the empty batch job completes. -/
theorem c10_witness :
    ((∃ p, PrecisionIn.scalar (1 : ℚ) = PrecisionIn.scalar p) ∨
      PrecisionIn.scalar (1 : ℚ) = PrecisionIn.noPrec) ∧
    estConst [] 0 (pubsOf [] [] [] [] (.scalar 1)) = Except.ok [] ∧
    ((runUnique (estConst [] 0) [] [] [] [] (.scalar 1)).result =
      Except.error Err.indexError ∧
    (runUnique (estConst [] 0) [] [] [] [] (.scalar 1)).estimatorCalls =
      [pubsOf [] [] [] [] (.scalar 1)]) :=
  ⟨Or.inl ⟨1, rfl⟩, rfl,
    c10_empty_input_index_error (estConst [] 0) (.scalar 1)
      (Or.inl ⟨1, rfl⟩) rfl⟩

end ParamShiftGrad
